import Mathlib

/-!
Shallow embedding of `proj2/streamer.py`, the reliable in-order byte-stream
transport built on a lossy UDP socket, together with proofs about its
packet codec, sender, listener, receiver and close logic.

Conventions of the embedding:
* Byte strings are `List Nat` (each entry a byte value).
* `struct.pack("LLB", ...)` uses native sizes on the 64-bit Linux host the
  code runs on: two 8-byte little-endian unsigned longs and one byte,
  so `HEADER_SIZE = 17`.
* `hashlib.sha256(...).digest()` is an external library function; the
  development is parametric in a digest function
  `H : List Nat → List Nat`, with the hypothesis `∀ x, (H x).length = 32`
  (SHA-256 digests are always 32 bytes) supplied where a proof needs it.
* `time.time()` values and timeouts (floats in Python) are modelled as `ℚ`.
* `queue.PriorityQueue` is modelled as a plain list together with
  `popMinBy`, which removes a least element (both `Packet` and
  `InflightPacket` order themselves by `seq_n` first).
* Raising `PacketCorruptError` is modelled by the `corruptError`
  constructor of `DecodeResult`.
-/

namespace Proj2

/-- `HEADER_SIZE = len(struct.pack("LLB", 0, 0, 0))`: native sizes on the
64-bit host give 8 + 8 + 1 = 17 bytes. -/
def HEADER_SIZE : Nat := 17

/-- `HASH_SIZE = 32`, the SHA-256 digest size. -/
def HASH_SIZE : Nat := 32

/-- `PACKET_SIZE = 1472`. -/
def PACKET_SIZE : Nat := 1472

/-- `PAYLOAD_SIZE = PACKET_SIZE - HEADER_SIZE - HASH_SIZE`. -/
def PAYLOAD_SIZE : Nat := PACKET_SIZE - HEADER_SIZE - HASH_SIZE

/-- Little-endian encoding of `n` into `w` bytes, as `struct.pack` does for
an unsigned integer field of width `w`. -/
def toLE : Nat → Nat → List Nat
  | 0, _ => []
  | w + 1, n => n % 256 :: toLE w (n / 256)

/-- Little-endian decoding of a byte list, as `struct.unpack` does. -/
def fromLE : List Nat → Nat
  | [] => 0
  | b :: bs => b + 256 * fromLE bs

/-- The `Packet` NamedTuple of `streamer.py`: header fields `seq_n` and
`recv_buf_size`, the flag bits `ack` and `fin`, and the payload. -/
structure Packet where
  seq_n : Nat := 0
  recv_buf_size : Nat := 0
  ack : Bool := false
  fin : Bool := false
  payload : List Nat := []
deriving DecidableEq, Repr

/-- The flags byte built in `Packet.to_bytes`:
`_flags = int(ack) << 3; _flags |= int(fin) << 7`. -/
def packFlags (p : Packet) : Nat :=
  ((if p.ack then 1 else 0) <<< 3) ||| ((if p.fin then 1 else 0) <<< 7)

/-- The header bytes `struct.pack(HEADER_FORMAT, seq_n, recv_buf_size, _flags)`. -/
def packHeader (p : Packet) : List Nat :=
  toLE 8 p.seq_n ++ toLE 8 p.recv_buf_size ++ [packFlags p]

/-- `Packet.to_bytes`: `header_bytes + calcHash(header_bytes + payload) + payload`,
parametric in the digest function `H`. -/
def Packet.to_bytes (H : List Nat → List Nat) (p : Packet) : List Nat :=
  packHeader p ++ H (packHeader p ++ p.payload) ++ p.payload

/-- Result of `Packet.from_bytes`: either a decoded packet or the raised
`PacketCorruptError`. -/
inductive DecodeResult where
  | corruptError : DecodeResult
  | ok : Packet → DecodeResult
deriving DecidableEq, Repr

/-- `Packet.from_bytes`: slice `buf` into header, digest and payload by the
fixed offsets, recompute the digest over `header_bytes + payload`, raise
`PacketCorruptError` on mismatch, otherwise unpack the fields and derive
`ack = bool((_flags >> 3) & 1)` and `fin = bool((_flags >> 7) & 1)`. -/
def Packet.from_bytes (H : List Nat → List Nat) (buf : List Nat) : DecodeResult :=
  let header_bytes := buf.take HEADER_SIZE
  let hash := (buf.drop HEADER_SIZE).take HASH_SIZE
  let payload := buf.drop (HEADER_SIZE + HASH_SIZE)
  if H (header_bytes ++ payload) ≠ hash then
    .corruptError
  else
    let seq_n := fromLE (header_bytes.take 8)
    let recv_buf_size := fromLE ((header_bytes.drop 8).take 8)
    let flags := fromLE (header_bytes.drop 16)
    .ok { seq_n := seq_n, recv_buf_size := recv_buf_size,
          ack := ((flags >>> 3) &&& 1) == 1, fin := ((flags >>> 7) &&& 1) == 1,
          payload := payload }

/-- The `seq_n` field carried by an encoded packet (first 8 header bytes). -/
def wireSeq (bs : List Nat) : Nat := fromLE (bs.take 8)

/-- The ACK bit carried by an encoded packet (bit 3 of the flags byte,
which sits at offset 16 of the header). -/
def wireAck (bs : List Nat) : Bool := ((bs.getD 16 0 >>> 3) &&& 1) == 1

/-- The FIN bit carried by an encoded packet (bit 7 of the flags byte). -/
def wireFin (bs : List Nat) : Bool := ((bs.getD 16 0 >>> 7) &&& 1) == 1

/-- A concrete stand-in digest function used to instantiate witnesses:
a constant 32-byte digest.  (Every theorem parametric in `H` only needs
`∀ x, (H x).length = 32`, which this satisfies.) -/
def hConst : List Nat → List Nat := fun _ => List.replicate 32 0

/-- Concrete packet used by witnesses. -/
def pDemo : Packet :=
  { seq_n := 5, recv_buf_size := 7, ack := true, fin := true, payload := [1, 2, 3] }

/-- The `InflightPacket` class: sequence number, send time (`None` until the
sender transmits it), timeout, and the encoded packet bytes.  Instances
order themselves by `seq_n` (`__lt__` etc.). -/
structure InflightPacket where
  seq_n : Nat := 0
  start_time : Option ℚ := none
  timeout_s : ℚ := 0
  packet : List Nat := []
deriving DecidableEq, Repr

/-- The mutable per-stream attributes of the `Streamer` class, together with
an output trace: `tx` records the byte strings passed directly to
`socket.sendto` by `recv`, `_listener` and `close` (the sender thread's
transmissions are recorded in `SenderState.tx`), and `stopped` records that
`socket.stoprecv()` was called. -/
structure StreamerState where
  send_next_seq_n : Nat := 0
  acked_n : Nat := 0
  send_q : List InflightPacket := []
  recv_expect_seq_n : Nat := 0
  recv_q : List Packet := []
  closed : Bool := false
  should_close : Bool := false
  tx : List (List Nat) := []
  stopped : Bool := false
deriving DecidableEq, Repr

/-- `self.ACK_TIMEOUT = 0.25` seconds. -/
def ACK_TIMEOUT : ℚ := 1 / 4

/-- `timeout_s = timeout_s if timeout_s else self.ACK_TIMEOUT`: `None` and
`0` are falsy, so both fall back to `ACK_TIMEOUT`. -/
def resolveTimeout (timeout_s : Option ℚ) : ℚ :=
  match timeout_s with
  | none => ACK_TIMEOUT
  | some v => if v = 0 then ACK_TIMEOUT else v

/-- The body of the `while data_bytes:` loop of `Streamer.send`, one
constructor call, encode and enqueue per `PAYLOAD_SIZE`-byte chunk.  The
fuel argument bounds the number of iterations; `sendData` passes
`data.length`, which the loop strictly decreases while `data` is
non-empty, so the `0` case is only reached once `data` is empty. -/
def sendGo (H : List Nat → List Nat) (t : ℚ) : Nat → StreamerState → List Nat → StreamerState
  | 0, s, _ => s
  | fuel + 1, s, data =>
    if data = [] then s
    else
      let recv_buf_size := if PAYLOAD_SIZE < data.length then data.length - PAYLOAD_SIZE else 0
      let send_buf := (Packet.mk s.send_next_seq_n recv_buf_size false false
        (data.take PAYLOAD_SIZE)).to_bytes H
      sendGo H t fuel
        { s with
          send_q := s.send_q ++ [InflightPacket.mk s.send_next_seq_n none t send_buf],
          send_next_seq_n := s.send_next_seq_n + 1 }
        (data.drop PAYLOAD_SIZE)

/-- `Streamer.send` after the timeout has been resolved. -/
def sendData (H : List Nat → List Nat) (t : ℚ) (s : StreamerState) (data : List Nat) :
    StreamerState :=
  sendGo H t data.length s data

/-- `Streamer.send(data_bytes, timeout_s=None)`. -/
def Streamer.send (H : List Nat → List Nat) (s : StreamerState) (data : List Nat)
    (timeout_s : Option ℚ) : StreamerState :=
  sendData H (resolveTimeout timeout_s) s data

/-- The list of `InflightPacket`s that one `Streamer.send` call pushes onto
the send queue, starting from sequence number `seq`; same fuel discipline
as `sendGo`. -/
def sendEntriesGo (H : List Nat → List Nat) (t : ℚ) :
    Nat → Nat → List Nat → List InflightPacket
  | 0, _, _ => []
  | fuel + 1, seq, data =>
    if data = [] then []
    else
      let recv_buf_size := if PAYLOAD_SIZE < data.length then data.length - PAYLOAD_SIZE else 0
      InflightPacket.mk seq none t
          ((Packet.mk seq recv_buf_size false false (data.take PAYLOAD_SIZE)).to_bytes H)
        :: sendEntriesGo H t fuel (seq + 1) (data.drop PAYLOAD_SIZE)

/-- Wrapper for `sendEntriesGo` with the canonical fuel. -/
def sendEntries (H : List Nat → List Nat) (t : ℚ) (seq : Nat) (data : List Nat) :
    List InflightPacket :=
  sendEntriesGo H t data.length seq data

/-- `queue.PriorityQueue.get()` on a queue modelled as a list: remove the
leftmost element whose key is minimal (both queue element types compare by
`seq_n`). -/
def popMinBy (key : α → Nat) : List α → Option (α × List α)
  | [] => none
  | a :: rest =>
    match popMinBy key rest with
    | none => some (a, [])
    | some (b, rest') => if key a ≤ key b then some (a, rest) else some (b, a :: rest')

/-- The state the `_sender` thread works on: the shared send queue, its
thread-local `inflight_q` list, and the trace of byte strings it passed to
`socket.sendto`. -/
structure SenderState where
  send_q : List InflightPacket := []
  inflight_q : List InflightPacket := []
  tx : List (List Nat) := []
deriving DecidableEq, Repr

/-- The inner admission loop of `_sender`:
`while not send_q.empty() and len(inflight_q) < 25`, pop the minimal entry,
stamp its `start_time`, transmit it and append it to `inflight_q`.  Fuel
bounds the iterations; `refillLoop` passes the send-queue length, which
each iteration strictly decreases, so the `0` case is only reached with an
empty queue. -/
def refillGo (now : ℚ) : Nat → SenderState → SenderState
  | 0, s => s
  | fuel + 1, s =>
    if s.send_q ≠ [] ∧ s.inflight_q.length < 25 then
      match popMinBy (fun ip => ip.seq_n) s.send_q with
      | none => s
      | some (p, rest) =>
        refillGo now fuel
          { send_q := rest,
            inflight_q := s.inflight_q ++ [{ p with start_time := some now }],
            tx := s.tx ++ [p.packet] }
    else s

/-- The admission loop with its canonical fuel. -/
def refillLoop (now : ℚ) (s : SenderState) : SenderState :=
  refillGo now s.send_q.length s

/-- Length of the maximal prefix of `inflight_q` whose entries satisfy
`seq_n <= acked_n`; the scan loop of `_sender` leaves `idx` equal to this
value minus one (it starts at `-1` and breaks at the first entry that is
not acknowledged). -/
def ackedPrefixLen (acked : Nat) : List InflightPacket → Nat
  | [] => 0
  | p :: ps => if p.seq_n ≤ acked then ackedPrefixLen acked ps + 1 else 0

/-- The entry at which the scan loop of `_sender` breaks: the first entry
with `seq_n > acked_n`, if the acknowledged prefix does not cover the whole
list. -/
def firstUnacked (acked : Nat) : List InflightPacket → Option InflightPacket
  | [] => none
  | p :: ps => if p.seq_n ≤ acked then firstUnacked acked ps else some p

/-- One iteration of the `_sender` loop body: admit new packets from the
send queue (window 25), compute `idx` and `resend_all` by the scan loop,
slice `inflight_q = inflight_q[idx:]` when `idx > 0`, and on `resend_all`
refresh every remaining entry's `start_time` and retransmit it. -/
def senderIter (now : ℚ) (acked : Nat) (s0 : SenderState) : SenderState :=
  let s := refillLoop now s0
  let idx : Int := (ackedPrefixLen acked s.inflight_q : Int) - 1
  let resendAll :=
    match firstUnacked acked s.inflight_q with
    | some p => decide (p.timeout_s < now - p.start_time.getD 0)
    | none => false
  let infl := if 0 < idx then s.inflight_q.drop idx.toNat else s.inflight_q
  if resendAll then
    { s with
      inflight_q := infl.map (fun p => { p with start_time := some now }),
      tx := s.tx ++ infl.map (fun p => p.packet) }
  else
    { s with inflight_q := infl }

/-- The ACK packet `recv` emits: `Packet(seq_n=packet.seq_n, recv_buf_size=0, ack=True)`. -/
def ackPacketFor (n : Nat) : Packet :=
  { seq_n := n, recv_buf_size := 0, ack := true }

/-- `Streamer.recv`: loop while not closed; pop the minimal packet from the
reassembly queue; if its `seq_n` equals `recv_expect_seq_n`, advance the
counter, send an ACK for that `seq_n` and return the payload; if its
`seq_n` is smaller, drop it and continue; otherwise put it back and
continue.  `none` models blocking (empty queue, `closed`, or fuel
exhausted while spinning on out-of-order packets). -/
def recvLoop (H : List Nat → List Nat) : Nat → StreamerState → Option (List Nat) × StreamerState
  | 0, s => (none, s)
  | fuel + 1, s =>
    if s.closed then (none, s)
    else
      match popMinBy (fun p => p.seq_n) s.recv_q with
      | none => (none, s)
      | some (packet, rest) =>
        if packet.seq_n = s.recv_expect_seq_n then
          (some packet.payload,
            { s with
              recv_expect_seq_n := s.recv_expect_seq_n + 1,
              recv_q := rest,
              tx := s.tx ++ [(ackPacketFor packet.seq_n).to_bytes H] })
        else if packet.seq_n < s.recv_expect_seq_n then
          recvLoop H fuel { s with recv_q := rest }
        else
          recvLoop H fuel { s with recv_q := rest ++ [packet] }

/-- The dispatch the `_listener` thread performs on a successfully decoded
packet: on ACK, overwrite `acked_n` with the packet's `seq_n` (and raise
`should_close` when the FIN bit is also set); on a bare FIN, transmit a
FIN-ACK echoing its `seq_n` and raise `should_close`; otherwise park the
packet on the reassembly queue. -/
def listenerHandle (H : List Nat → List Nat) (s : StreamerState) (packet : Packet) :
    StreamerState :=
  if packet.ack then
    let s1 := { s with acked_n := packet.seq_n }
    if packet.fin then { s1 with should_close := true } else s1
  else if packet.fin then
    { s with
      tx := s.tx ++ [(Packet.mk packet.seq_n 0 true true []).to_bytes H],
      should_close := true }
  else
    { s with recv_q := s.recv_q ++ [packet] }

/-- One iteration of the `_listener` loop on a received datagram `buf`:
skip empty reads, drop the datagram silently when `Packet.from_bytes`
raises `PacketCorruptError`, otherwise dispatch the decoded packet. -/
def listenerStep (H : List Nat → List Nat) (s : StreamerState) (buf : List Nat) :
    StreamerState :=
  if buf = [] then s
  else
    match Packet.from_bytes H buf with
    | .corruptError => s
    | .ok packet => listenerHandle H s packet

/-- `Streamer.close`: when `should_close` is not set, build a FIN packet
with the current `send_next_seq_n`, pass its *encoded bytes* to
`Streamer.send` with a 2-second timeout, then transmit a bare ACK built
from the *current* `send_next_seq_n`; finally set `closed` and call
`socket.stoprecv()`. -/
def Streamer.close (H : List Nat → List Nat) (s : StreamerState) : StreamerState :=
  let s1 :=
    if ¬ s.should_close then
      let fin_pack : Packet := { seq_n := s.send_next_seq_n, fin := true }
      let s2 := Streamer.send H s (fin_pack.to_bytes H) (some 2)
      let ack_pack : Packet := { seq_n := s2.send_next_seq_n, ack := true }
      { s2 with tx := s2.tx ++ [ack_pack.to_bytes H] }
    else s
  { s1 with closed := true, stopped := true }

/-- Python errors relevant to the sender loop condition. -/
inductive PyError where
  | attrError : PyError
deriving DecidableEq, Repr

/-- Evaluation of the expression `inflight_q.empty()` where `inflight_q`
is a Python `list`.  `list` has no attribute `empty` (the code confuses it
with `queue.Queue.empty`), so the attribute lookup raises
`AttributeError` without inspecting the list. -/
def listEmptyCall (_q : List InflightPacket) : Except PyError Bool :=
  .error .attrError

/-- Evaluation of the `_sender` loop condition
`not self.closed or not inflight_q.empty()`, with Python's short-circuit
`or`: when `closed` is false the right operand is never evaluated; when
`closed` is true the `inflight_q.empty()` call is evaluated. -/
def senderLoopCond (closed : Bool) (inflight_q : List InflightPacket) : Except PyError Bool :=
  if ¬ closed then .ok true
  else
    match listEmptyCall inflight_q with
    | .error e => .error e
    | .ok b => .ok (!b)

/-- A freshly constructed stream: all counters zero, queues empty, flags
clear — the field defaults of `StreamerState` are exactly the initial
values assigned in `Streamer.__init__`. -/
def s0 : StreamerState := {}

/-- A stream whose acknowledged watermark has already reached 5. -/
def sL5 : StreamerState := { acked_n := 5 }

/-- An ACK packet for sequence number 3. -/
def pAck3 : Packet := { seq_n := 3, ack := true }

/-- An in-flight entry with sequence number 1. -/
def ipGC : InflightPacket := { seq_n := 1, start_time := some 0, timeout_s := 1, packet := [] }

/-- An in-flight entry with sequence number 2. -/
def ipGC2 : InflightPacket := { seq_n := 2, start_time := some 0, timeout_s := 1, packet := [] }

/-- Sender state whose single in-flight entry has already been acked. -/
def sGC : SenderState := { inflight_q := [ipGC] }

/-- Sender state with two in-flight entries. -/
def sGC2 : SenderState := { inflight_q := [ipGC, ipGC2] }

/-- A data packet with sequence number 0 and payload `[7]`. -/
def pData0 : Packet := { seq_n := 0, payload := [7] }

/-- A stream with one in-order packet parked on the reassembly queue. -/
def sRecv : StreamerState := { recv_q := [pData0] }

/-- The state `sRecv` reaches after `recv` consumes `pData0`. -/
def sRecvOut : StreamerState :=
  { recv_expect_seq_n := 1, recv_q := [], tx := [(ackPacketFor 0).to_bytes hConst] }

/-- A queued packet awaiting admission by the sender. -/
def ipW : InflightPacket := { seq_n := 0, timeout_s := 1, packet := [9] }

/-- Sender state with one queued packet and an empty in-flight list. -/
def sW : SenderState := { send_q := [ipW] }

/-! ### Byte-level lemmas about the codec -/

theorem length_toLE (w : Nat) : ∀ n, (toLE w n).length = w := by
  induction w with
  | zero => intro n; rfl
  | succ w ih => intro n; simp [toLE, ih]

theorem fromLE_toLE : ∀ (w n : Nat), n < 256 ^ w → fromLE (toLE w n) = n := by
  intro w
  induction w with
  | zero =>
    intro n h
    rw [pow_zero] at h
    simp [toLE, fromLE]
    omega
  | succ w ih =>
    intro n h
    have hdiv : n / 256 < 256 ^ w := by
      apply Nat.div_lt_of_lt_mul
      rw [show 256 * 256 ^ w = 256 ^ (w + 1) from (pow_succ' 256 w).symm]
      exact h
    simp only [toLE, fromLE]
    rw [ih (n / 256) hdiv]
    omega

theorem take_len_append (a b : List α) : (a ++ b).take a.length = a := by simp

theorem drop_len_append (a b : List α) : (a ++ b).drop a.length = b := by simp

theorem packHeader_length (p : Packet) : (packHeader p).length = 17 := by
  simp [packHeader, length_toLE]

theorem to_bytes_take_header (H : List Nat → List Nat) (p : Packet) :
    (p.to_bytes H).take HEADER_SIZE = packHeader p := by
  simp only [Packet.to_bytes]
  rw [show HEADER_SIZE = (packHeader p).length from (packHeader_length p).symm]
  exact take_len_append _ _

theorem to_bytes_drop_header (H : List Nat → List Nat) (p : Packet) :
    (p.to_bytes H).drop HEADER_SIZE = H (packHeader p ++ p.payload) ++ p.payload := by
  simp only [Packet.to_bytes]
  rw [show HEADER_SIZE = (packHeader p).length from (packHeader_length p).symm]
  exact drop_len_append _ _

theorem to_bytes_hash_slice (H : List Nat → List Nat) (hH : ∀ x, (H x).length = 32)
    (p : Packet) :
    ((p.to_bytes H).drop HEADER_SIZE).take HASH_SIZE = H (packHeader p ++ p.payload) := by
  rw [to_bytes_drop_header]
  rw [show HASH_SIZE = (H (packHeader p ++ p.payload)).length from (hH _).symm]
  exact take_len_append _ _

theorem to_bytes_drop_payload (H : List Nat → List Nat) (hH : ∀ x, (H x).length = 32)
    (p : Packet) :
    (p.to_bytes H).drop (HEADER_SIZE + HASH_SIZE) = p.payload := by
  rw [← List.drop_drop HASH_SIZE HEADER_SIZE, to_bytes_drop_header]
  rw [show HASH_SIZE = (H (packHeader p ++ p.payload)).length from (hH _).symm]
  exact drop_len_append _ _

theorem packHeader_take8 (p : Packet) : (packHeader p).take 8 = toLE 8 p.seq_n := by
  simp only [packHeader]
  rw [show (8 : Nat) = (toLE 8 p.seq_n).length from (length_toLE 8 p.seq_n).symm]
  exact take_len_append _ _

theorem packHeader_drop8 (p : Packet) :
    (packHeader p).drop 8 = toLE 8 p.recv_buf_size ++ [packFlags p] := by
  simp only [packHeader]
  rw [show (8 : Nat) = (toLE 8 p.seq_n).length from (length_toLE 8 p.seq_n).symm]
  exact drop_len_append _ _

theorem packHeader_drop16 (p : Packet) : (packHeader p).drop 16 = [packFlags p] := by
  rw [show (16 : Nat) = 8 + 8 from rfl, ← List.drop_drop 8 8, packHeader_drop8]
  rw [show (8 : Nat) = (toLE 8 p.recv_buf_size).length from (length_toLE 8 _).symm]
  exact drop_len_append _ _

theorem packFlags_ack (p : Packet) : ((packFlags p >>> 3) &&& 1 == 1) = p.ack := by
  obtain ⟨s, r, a, f, pl⟩ := p
  cases a <;> cases f <;> simp [packFlags]

theorem packFlags_fin (p : Packet) : ((packFlags p >>> 7) &&& 1 == 1) = p.fin := by
  obtain ⟨s, r, a, f, pl⟩ := p
  cases a <;> cases f <;> simp [packFlags]

theorem hConst_len : ∀ x, (hConst x).length = 32 := by
  intro x
  simp [hConst]

/-- C7: for every packet whose `seq_n` and `recv_buf_size` fit the 8-byte
header fields and whose payload is at most `PAYLOAD_SIZE` bytes,
`Packet.from_bytes (Packet.to_bytes p)` raises no corruption error and
returns a packet equal to `p` in every field. -/
theorem from_to_bytes_id (H : List Nat → List Nat) (hH : ∀ x, (H x).length = 32)
    (p : Packet) (h1 : p.seq_n < 2 ^ 64) (h2 : p.recv_buf_size < 2 ^ 64)
    (h3 : p.payload.length ≤ PAYLOAD_SIZE) :
    Packet.from_bytes H (Packet.to_bytes H p) = .ok p := by
  simp only [Packet.from_bytes]
  rw [to_bytes_take_header, to_bytes_hash_slice H hH, to_bytes_drop_payload H hH]
  rw [if_neg (by simp)]
  rw [packHeader_take8, packHeader_drop8, packHeader_drop16]
  rw [show (toLE 8 p.recv_buf_size ++ [packFlags p]).take 8 = toLE 8 p.recv_buf_size from by
    rw [show (8 : Nat) = (toLE 8 p.recv_buf_size).length from (length_toLE 8 _).symm]
    exact take_len_append _ _]
  rw [fromLE_toLE 8 p.seq_n (by rw [show (256 : Nat) ^ 8 = 2 ^ 64 from by norm_num]; exact h1)]
  rw [fromLE_toLE 8 p.recv_buf_size
    (by rw [show (256 : Nat) ^ 8 = 2 ^ 64 from by norm_num]; exact h2)]
  rw [show fromLE [packFlags p] = packFlags p from by simp [fromLE]]
  rw [packFlags_ack, packFlags_fin]

/-- Witness for C7 at a concrete packet and digest function. -/
theorem from_to_bytes_id_witness :
    Packet.from_bytes hConst (Packet.to_bytes hConst pDemo) = .ok pDemo :=
  from_to_bytes_id hConst hConst_len pDemo (by decide) (by decide) (by decide)

/-- C8: `Packet.from_bytes buf` raises `PacketCorruptError` exactly when the
digest recomputed over `header_bytes ++ payload` differs from the digest
carried in `buf`, and on such a corrupt datagram one listener iteration
leaves the entire stream state unchanged. -/
theorem from_bytes_corrupt_iff (H : List Nat → List Nat) (s : StreamerState)
    (buf : List Nat) :
    (Packet.from_bytes H buf = .corruptError ↔
      H (buf.take HEADER_SIZE ++ buf.drop (HEADER_SIZE + HASH_SIZE)) ≠
        (buf.drop HEADER_SIZE).take HASH_SIZE)
    ∧ (Packet.from_bytes H buf = .corruptError → listenerStep H s buf = s) := by
  constructor
  · simp only [Packet.from_bytes]
    by_cases h : H (buf.take HEADER_SIZE ++ buf.drop (HEADER_SIZE + HASH_SIZE)) =
        (buf.drop HEADER_SIZE).take HASH_SIZE
    · rw [if_neg (by simpa using h)]
      simp [h]
    · rw [if_pos h]
      simp [h]
  · intro hc
    simp only [listenerStep]
    by_cases hb : buf = []
    · rw [if_pos hb]
    · rw [if_neg hb, hc]

/-- Witness for C8: a one-byte datagram is corrupt under `hConst` and the
listener ignores it. -/
theorem from_bytes_corrupt_iff_witness :
    Packet.from_bytes hConst [0] = .corruptError ∧ listenerStep hConst s0 [0] = s0 :=
  ⟨by decide, (from_bytes_corrupt_iff hConst s0 [0]).2 (by decide)⟩

/-! ### The send path -/

theorem sendEntriesGo_nil (H : List Nat → List Nat) (t : ℚ) (fuel seq : Nat) :
    sendEntriesGo H t fuel seq [] = [] := by
  cases fuel <;> simp [sendEntriesGo]

theorem drop_payload_length_le (data : List Nat) (fuel : Nat)
    (h : data.length ≤ fuel + 1) (hd : data ≠ []) :
    (data.drop PAYLOAD_SIZE).length ≤ fuel := by
  have h0 : 0 < data.length := List.length_pos.mpr hd
  have hP : PAYLOAD_SIZE = 1423 := rfl
  simp only [List.length_drop]
  omega

theorem sendGo_eq (H : List Nat → List Nat) (t : ℚ) :
    ∀ fuel (data : List Nat) (s : StreamerState), data.length ≤ fuel →
      sendGo H t fuel s data =
        { s with
          send_q := s.send_q ++ sendEntriesGo H t fuel s.send_next_seq_n data,
          send_next_seq_n :=
            s.send_next_seq_n + (sendEntriesGo H t fuel s.send_next_seq_n data).length } := by
  intro fuel
  induction fuel with
  | zero =>
    intro data s h
    have hd : data = [] := List.eq_nil_of_length_eq_zero (Nat.le_zero.mp h)
    subst hd
    simp [sendGo, sendEntriesGo]
  | succ fuel ih =>
    intro data s h
    by_cases hd : data = []
    · subst hd; simp [sendGo, sendEntriesGo]
    · simp only [sendGo, sendEntriesGo, if_neg hd]
      rw [ih _ _ (drop_payload_length_le data fuel h hd)]
      simp only [List.append_assoc, List.singleton_append, List.length_cons]
      congr 1
      omega

theorem sendEntriesGo_length (H : List Nat → List Nat) (t : ℚ) :
    ∀ fuel (data : List Nat) (seq : Nat), data.length ≤ fuel →
      (sendEntriesGo H t fuel seq data).length =
        (data.length + PAYLOAD_SIZE - 1) / PAYLOAD_SIZE := by
  intro fuel
  induction fuel with
  | zero =>
    intro data seq h
    have hd : data = [] := List.eq_nil_of_length_eq_zero (Nat.le_zero.mp h)
    subst hd
    simp [sendEntriesGo]
    decide
  | succ fuel ih =>
    intro data seq h
    by_cases hd : data = []
    · subst hd
      simp [sendEntriesGo]
      decide
    · simp only [sendEntriesGo, if_neg hd, List.length_cons]
      rw [ih _ _ (drop_payload_length_le data fuel h hd)]
      have h0 : 0 < data.length := List.length_pos.mpr hd
      have hP : PAYLOAD_SIZE = 1423 := rfl
      simp only [List.length_drop, hP]
      omega

theorem sendEntriesGo_seq (H : List Nat → List Nat) (t : ℚ) :
    ∀ fuel (data : List Nat) (seq : Nat), data.length ≤ fuel →
      (sendEntriesGo H t fuel seq data).map (fun e => e.seq_n) =
        List.range' seq (sendEntriesGo H t fuel seq data).length := by
  intro fuel
  induction fuel with
  | zero =>
    intro data seq h
    have hd : data = [] := List.eq_nil_of_length_eq_zero (Nat.le_zero.mp h)
    subst hd
    simp [sendEntriesGo]
  | succ fuel ih =>
    intro data seq h
    by_cases hd : data = []
    · subst hd; simp [sendEntriesGo]
    · simp only [sendEntriesGo, if_neg hd, List.map_cons, List.length_cons]
      rw [ih _ _ (drop_payload_length_le data fuel h hd)]
      rw [List.range'_succ seq _ 1]

theorem sendEntriesGo_payload (H : List Nat → List Nat) (hH : ∀ x, (H x).length = 32)
    (t : ℚ) :
    ∀ fuel (data : List Nat) (seq : Nat), data.length ≤ fuel →
      ((sendEntriesGo H t fuel seq data).map
        (fun e => e.packet.drop (HEADER_SIZE + HASH_SIZE))).flatten = data := by
  intro fuel
  induction fuel with
  | zero =>
    intro data seq h
    have hd : data = [] := List.eq_nil_of_length_eq_zero (Nat.le_zero.mp h)
    subst hd
    simp [sendEntriesGo]
  | succ fuel ih =>
    intro data seq h
    by_cases hd : data = []
    · subst hd; simp [sendEntriesGo]
    · simp only [sendEntriesGo, if_neg hd, List.map_cons, List.flatten_cons]
      rw [ih _ _ (drop_payload_length_le data fuel h hd)]
      rw [to_bytes_drop_payload H hH]
      exact List.take_append_drop PAYLOAD_SIZE data

theorem sendEntriesGo_mem (H : List Nat → List Nat) (t : ℚ) :
    ∀ fuel (data : List Nat) (seq : Nat) e, e ∈ sendEntriesGo H t fuel seq data →
      ∃ p : Packet, e.packet = p.to_bytes H ∧ p.ack = false ∧ p.fin = false ∧
        p.seq_n = e.seq_n ∧ p.payload.length ≤ PAYLOAD_SIZE := by
  intro fuel
  induction fuel with
  | zero => intro data seq e he; simp [sendEntriesGo] at he
  | succ fuel ih =>
    intro data seq e he
    by_cases hd : data = []
    · subst hd; simp [sendEntriesGo] at he
    · simp only [sendEntriesGo, if_neg hd, List.mem_cons] at he
      rcases he with he | he
      · subst he
        refine ⟨Packet.mk seq (if PAYLOAD_SIZE < data.length then
            data.length - PAYLOAD_SIZE else 0) false false (data.take PAYLOAD_SIZE),
          rfl, rfl, rfl, rfl, ?_⟩
        simp
      · exact ih _ _ _ he

/-- C5: `send(data)` splits `data` into `⌈len/PAYLOAD_SIZE⌉` chunks of at
most `PAYLOAD_SIZE` bytes, enqueues one DATA packet (ack and fin clear)
per chunk with consecutive `seq_n` starting at the current
`send_next_seq_n`, the payloads concatenated in `seq_n` order equal
`data`, `send_next_seq_n` grows by the number of chunks, and the call
changes nothing else (it returns once the packets are queued, touching
neither `acked_n` nor any other field). -/
theorem send_enqueues_chunks (H : List Nat → List Nat) (hH : ∀ x, (H x).length = 32)
    (timeout_s : Option ℚ) (s : StreamerState) (data : List Nat) :
    Streamer.send H s data timeout_s =
      { s with
        send_q := s.send_q ++ sendEntries H (resolveTimeout timeout_s) s.send_next_seq_n data,
        send_next_seq_n :=
          s.send_next_seq_n +
            (sendEntries H (resolveTimeout timeout_s) s.send_next_seq_n data).length }
    ∧ (sendEntries H (resolveTimeout timeout_s) s.send_next_seq_n data).length =
        (data.length + PAYLOAD_SIZE - 1) / PAYLOAD_SIZE
    ∧ (sendEntries H (resolveTimeout timeout_s) s.send_next_seq_n data).map
        (fun e => e.seq_n) =
        List.range' s.send_next_seq_n
          (sendEntries H (resolveTimeout timeout_s) s.send_next_seq_n data).length
    ∧ ((sendEntries H (resolveTimeout timeout_s) s.send_next_seq_n data).map
        (fun e => e.packet.drop (HEADER_SIZE + HASH_SIZE))).flatten = data
    ∧ ∀ e ∈ sendEntries H (resolveTimeout timeout_s) s.send_next_seq_n data,
        ∃ p : Packet, e.packet = p.to_bytes H ∧ p.ack = false ∧ p.fin = false ∧
          p.seq_n = e.seq_n ∧ p.payload.length ≤ PAYLOAD_SIZE :=
  ⟨sendGo_eq H _ data.length data s (Nat.le_refl _),
   sendEntriesGo_length H _ data.length data _ (Nat.le_refl _),
   sendEntriesGo_seq H _ data.length data _ (Nat.le_refl _),
   sendEntriesGo_payload H hH _ data.length data _ (Nat.le_refl _),
   fun e he => sendEntriesGo_mem H _ data.length data _ e he⟩

/-- Witness for C5 at a concrete three-byte send. -/
theorem send_enqueues_chunks_witness :
    Streamer.send hConst s0 [1, 2, 3] none =
      { s0 with
        send_q := s0.send_q ++
          sendEntries hConst (resolveTimeout none) s0.send_next_seq_n [1, 2, 3],
        send_next_seq_n :=
          s0.send_next_seq_n +
            (sendEntries hConst (resolveTimeout none) s0.send_next_seq_n [1, 2, 3]).length } :=
  (send_enqueues_chunks hConst hConst_len none s0 [1, 2, 3]).1

/-! ### The receive path -/

theorem popMinBy_eq_none (key : α → Nat) : ∀ l : List α, popMinBy key l = none ↔ l = [] := by
  intro l
  cases l with
  | nil => simp [popMinBy]
  | cons a rest =>
    simp only [popMinBy]
    cases popMinBy key rest with
    | none => simp
    | some pr =>
      obtain ⟨b, rest'⟩ := pr
      by_cases h : key a ≤ key b <;> simp [h]

theorem popMinBy_perm (key : α → Nat) :
    ∀ (l : List α) (a : α) (r : List α), popMinBy key l = some (a, r) → l.Perm (a :: r) := by
  intro l
  induction l with
  | nil => intro a r h; simp [popMinBy] at h
  | cons x xs ih =>
    intro a r h
    simp only [popMinBy] at h
    cases hp : popMinBy key xs with
    | none =>
      rw [hp] at h
      have hx : xs = [] := (popMinBy_eq_none key xs).mp hp
      subst hx
      simp at h
      obtain ⟨ha, hr⟩ := h
      subst ha
      subst hr
      exact List.Perm.refl _
    | some pr =>
      obtain ⟨b, rest'⟩ := pr
      rw [hp] at h
      by_cases hk : key x ≤ key b
      · simp [hk] at h
        obtain ⟨ha, hr⟩ := h
        subst ha
        subst hr
        exact List.Perm.refl _
      · simp [hk] at h
        obtain ⟨ha, hr⟩ := h
        subst ha
        subst hr
        exact List.Perm.trans ((ih b rest' hp).cons x) (List.Perm.swap b x rest')

theorem recvLoop_some (H : List Nat → List Nat) :
    ∀ fuel (s : StreamerState) (pl : List Nat) (s' : StreamerState),
      recvLoop H fuel s = (some pl, s') →
      s'.recv_expect_seq_n = s.recv_expect_seq_n + 1
      ∧ s'.tx = s.tx ++ [(ackPacketFor s.recv_expect_seq_n).to_bytes H]
      ∧ ∃ p dropped, pl = p.payload ∧ p.seq_n = s.recv_expect_seq_n
          ∧ s.recv_q.Perm (p :: (dropped ++ s'.recv_q))
          ∧ ∀ d ∈ dropped, d.seq_n < s.recv_expect_seq_n := by
  intro fuel
  induction fuel with
  | zero => intro s pl s' h; simp [recvLoop] at h
  | succ fuel ih =>
    intro s pl s' h
    simp only [recvLoop] at h
    by_cases hc : s.closed
    · rw [if_pos hc] at h; simp at h
    · rw [if_neg hc] at h
      cases hp : popMinBy (fun p => p.seq_n) s.recv_q with
      | none => simp only [hp] at h; simp at h
      | some pr =>
        obtain ⟨packet, rest⟩ := pr
        simp only [hp] at h
        have hperm : s.recv_q.Perm (packet :: rest) := popMinBy_perm _ _ _ _ hp
        by_cases he : packet.seq_n = s.recv_expect_seq_n
        · rw [if_pos he] at h
          injection h with h1 h2
          injection h1 with h1
          subst h2
          refine ⟨by simp, by simp [he], packet, [], h1.symm, he, ?_, by simp⟩
          simpa using hperm
        · rw [if_neg he] at h
          by_cases hlt : packet.seq_n < s.recv_expect_seq_n
          · rw [if_pos hlt] at h
            obtain ⟨h1, h2, p, dropped, hpl, hps, hperm', hdrop⟩ := ih _ _ _ h
            simp only at h1 h2 hperm' hdrop
            refine ⟨by simpa using h1, by simpa using h2, p, packet :: dropped, hpl,
              by simpa using hps, ?_, ?_⟩
            · have step1 : s.recv_q.Perm (packet :: rest) := hperm
              have step2 : (packet :: rest).Perm (packet :: (p :: (dropped ++ s'.recv_q))) :=
                hperm'.cons packet
              have step3 : (packet :: (p :: (dropped ++ s'.recv_q))).Perm
                  (p :: (packet :: (dropped ++ s'.recv_q))) := List.Perm.swap p packet _
              simpa using (step1.trans step2).trans step3
            · intro d hd
              rcases List.mem_cons.mp hd with hd | hd
              · subst hd; exact hlt
              · exact hdrop d hd
          · rw [if_neg hlt] at h
            obtain ⟨h1, h2, p, dropped, hpl, hps, hperm', hdrop⟩ := ih _ _ _ h
            simp only at h1 h2 hperm' hdrop
            refine ⟨by simpa using h1, by simpa using h2, p, dropped, hpl,
              by simpa using hps, ?_, by simpa using hdrop⟩
            have step1 : s.recv_q.Perm (packet :: rest) := hperm
            have step2 : (packet :: rest).Perm (rest ++ [packet]) :=
              (List.perm_append_singleton packet rest).symm
            exact (step1.trans step2).trans hperm'

theorem recvLoop_blocked (H : List Nat → List Nat) :
    ∀ fuel (s : StreamerState),
      (∀ p ∈ s.recv_q, p.seq_n ≠ s.recv_expect_seq_n) → (recvLoop H fuel s).1 = none := by
  intro fuel
  induction fuel with
  | zero => intro s hnone; simp [recvLoop]
  | succ fuel ih =>
    intro s hnone
    simp only [recvLoop]
    by_cases hc : s.closed
    · rw [if_pos hc]
    · rw [if_neg hc]
      cases hp : popMinBy (fun p => p.seq_n) s.recv_q with
      | none => simp only [hp]
      | some pr =>
        obtain ⟨packet, rest⟩ := pr
        simp only [hp]
        have hperm : s.recv_q.Perm (packet :: rest) := popMinBy_perm _ _ _ _ hp
        have hmem : packet ∈ s.recv_q := hperm.symm.subset (List.mem_cons_self packet rest)
        rw [if_neg (hnone packet hmem)]
        by_cases hlt : packet.seq_n < s.recv_expect_seq_n
        · rw [if_pos hlt]
          apply ih
          intro p hpmem
          simp only at hpmem
          exact hnone p (hperm.symm.subset (List.mem_cons_of_mem packet hpmem))
        · rw [if_neg hlt]
          apply ih
          intro p hpmem
          simp only at hpmem
          rcases List.mem_append.mp hpmem with hmem2 | hmem2
          · exact hnone p (hperm.symm.subset (List.mem_cons_of_mem packet hmem2))
          · rw [List.mem_singleton.mp hmem2]
            exact hnone packet hmem

/-- C4: when `recv` returns, the packet consumed carried exactly the
expected sequence number, `recv_expect_seq_n` advanced by one, exactly one
ACK for that sequence number was transmitted, every other packet removed
from the reassembly queue en route was a duplicate (`seq_n` strictly below
the expected number, silently discarded), packets with larger `seq_n` were
re-offered (they are still in the queue), and while no packet with the
expected sequence number is in the queue, `recv` does not return. -/
theorem recv_in_order (H : List Nat → List Nat) (fuel : Nat) (s : StreamerState) :
    (∀ pl s', recvLoop H fuel s = (some pl, s') →
      s'.recv_expect_seq_n = s.recv_expect_seq_n + 1
      ∧ s'.tx = s.tx ++ [(ackPacketFor s.recv_expect_seq_n).to_bytes H]
      ∧ ∃ p dropped, pl = p.payload ∧ p.seq_n = s.recv_expect_seq_n
          ∧ s.recv_q.Perm (p :: (dropped ++ s'.recv_q))
          ∧ ∀ d ∈ dropped, d.seq_n < s.recv_expect_seq_n)
    ∧ ((∀ p ∈ s.recv_q, p.seq_n ≠ s.recv_expect_seq_n) → (recvLoop H fuel s).1 = none) :=
  ⟨fun pl s' h => recvLoop_some H fuel s pl s' h, recvLoop_blocked H fuel s⟩

/-- Witness for C4: consuming the single in-order packet of `sRecv`. -/
theorem recv_in_order_witness :
    sRecvOut.recv_expect_seq_n = sRecv.recv_expect_seq_n + 1
    ∧ sRecvOut.tx = sRecv.tx ++ [(ackPacketFor sRecv.recv_expect_seq_n).to_bytes hConst]
    ∧ ∃ p dropped, [7] = p.payload ∧ p.seq_n = sRecv.recv_expect_seq_n
        ∧ sRecv.recv_q.Perm (p :: (dropped ++ sRecvOut.recv_q))
        ∧ ∀ d ∈ dropped, d.seq_n < sRecv.recv_expect_seq_n :=
  (recv_in_order hConst 1 sRecv).1 [7] sRecvOut (by decide)

/-! ### The listener -/

/-- C2 is refuted by the code: with the watermark at 5, handling an ACK for
sequence number 3 *lowers* `acked_n` to 3, which differs from
`max 5 3 = 5` — the listener performs a plain assignment, not a `max`. -/
theorem acked_plain_assignment_cex :
    (listenerHandle hConst sL5 pAck3).acked_n = 3
    ∧ ¬ sL5.acked_n ≤ (listenerHandle hConst sL5 pAck3).acked_n
    ∧ (listenerHandle hConst sL5 pAck3).acked_n ≠ max sL5.acked_n pAck3.seq_n := by
  decide

/-- C2 (amended): after the listener handles an ACK packet, `acked_n`
equals that packet's `seq_n` exactly — a plain overwrite, so the watermark
is not monotone and decreases whenever a smaller ACK arrives after a
larger one. -/
theorem listener_ack_overwrites (H : List Nat → List Nat) (s : StreamerState)
    (p : Packet) (hack : p.ack = true) :
    (listenerHandle H s p).acked_n = p.seq_n := by
  simp only [listenerHandle, hack, if_true]
  by_cases hf : p.fin = true <;> simp [hf]

/-- Witness for the amended C2. -/
theorem listener_ack_overwrites_witness :
    (listenerHandle hConst sL5 pAck3).acked_n = pAck3.seq_n :=
  listener_ack_overwrites hConst sL5 pAck3 rfl

/-! ### The sender -/

/-- C3 is refuted by the code: with a single in-flight entry of sequence
number 1 and `acked_n = 1`, one sender iteration removes nothing (`idx`
stays 0 and the guard is `idx > 0`), and with entries 1 and 2 both
acknowledged at `acked_n = 2`, the slice `inflight_q[idx:]` still keeps
the last acknowledged entry — so entries with `seq_n ≤ acked_n`
survive garbage collection. -/
theorem gc_keeps_acked_entry :
    ((senderIter 0 1 sGC).inflight_q = [ipGC] ∧ ipGC.seq_n ≤ 1)
    ∧ ((senderIter 0 2 sGC2).inflight_q = [ipGC2] ∧ ipGC2.seq_n ≤ 2) := by
  decide

theorem refillGo_le (now : ℚ) :
    ∀ fuel (s : SenderState), s.inflight_q.length ≤ 25 →
      (refillGo now fuel s).inflight_q.length ≤ 25 := by
  intro fuel
  induction fuel with
  | zero => intro s h; simpa [refillGo] using h
  | succ fuel ih =>
    intro s h
    simp only [refillGo]
    by_cases hcond : s.send_q ≠ [] ∧ s.inflight_q.length < 25
    · rw [if_pos hcond]
      cases hp : popMinBy (fun ip => ip.seq_n) s.send_q with
      | none => simp only [hp]; exact h
      | some pr =>
        obtain ⟨p, rest⟩ := pr
        simp only [hp]
        apply ih
        have h25 := hcond.2
        simp only [List.length_append, List.length_cons, List.length_nil]
        omega
    · rw [if_neg hcond]; exact h

theorem refillGo_full (now : ℚ) :
    ∀ fuel (s : SenderState), 25 ≤ s.inflight_q.length → refillGo now fuel s = s := by
  intro fuel
  cases fuel with
  | zero => intro s h; rfl
  | succ fuel =>
    intro s h
    simp only [refillGo]
    rw [if_neg fun hcond => (Nat.not_lt.mpr h) hcond.2]

/-- C6: an iteration of the sender loop keeps the in-flight list at no
more than `WINDOW = 25` entries, and the admission loop moves nothing out
of the send queue while the in-flight list already holds 25 entries. -/
theorem sender_window (now : ℚ) (acked : Nat) (s : SenderState)
    (h : s.inflight_q.length ≤ 25) :
    (senderIter now acked s).inflight_q.length ≤ 25
    ∧ (25 ≤ s.inflight_q.length → (refillLoop now s).inflight_q = s.inflight_q) := by
  have h1 : (refillLoop now s).inflight_q.length ≤ 25 :=
    refillGo_le now s.send_q.length s h
  constructor
  · simp only [senderIter]
    split
    · simp only [List.length_map]
      split
      · simp only [List.length_drop]
        omega
      · exact h1
    · split
      · simp only [List.length_drop]
        omega
      · exact h1
  · intro h25
    simp only [refillLoop]
    rw [refillGo_full now s.send_q.length s h25]

/-- Witness for C6 with one queued packet and an empty in-flight list. -/
theorem sender_window_witness :
    (senderIter 0 0 sW).inflight_q.length ≤ 25
    ∧ (25 ≤ sW.inflight_q.length → (refillLoop 0 sW).inflight_q = sW.inflight_q) :=
  sender_window 0 0 sW (by decide)

/-- C10: as soon as `closed` is set, evaluating the sender loop condition
`not self.closed or not inflight_q.empty()` reaches the
`inflight_q.empty()` call and raises `AttributeError` (Python lists have
no `empty` method), whatever the in-flight list contains — so the sender
thread dies by exception instead of draining its in-flight list; while
`closed` is unset, short-circuiting hides the bug and the condition is
true. -/
theorem sender_cond_attr_error (q : List InflightPacket) :
    senderLoopCond true q = .error .attrError ∧ senderLoopCond false q = .ok true := by
  constructor <;> simp [senderLoopCond, listEmptyCall]

/-- Witness for C10 with a non-empty in-flight list (the sender dies even
though packets are still in flight). -/
theorem sender_cond_attr_error_witness :
    senderLoopCond true [ipW] = .error .attrError
    ∧ senderLoopCond false [ipW] = .ok true :=
  sender_cond_attr_error [ipW]

/-! ### Close -/

theorem to_bytes_length (H : List Nat → List Nat) (hH : ∀ x, (H x).length = 32)
    (p : Packet) : (p.to_bytes H).length = 49 + p.payload.length := by
  simp only [Packet.to_bytes, List.length_append, packHeader_length, hH]

/-- C1 is refuted by the code, evaluated on a fresh stream: `close()` hands
the encoded FIN to `send()`, which wraps it as the *payload* of a fresh
packet, so the single entry pushed through the send queue carries the FIN
flag *clear* on the wire (it is a DATA packet), and because `send()` has
already incremented `send_next_seq_n`, the bare ACK transmitted afterwards
carries `seq_n = 1`, not the FIN's `seq_n = 0`; `send()` returns as soon
as the packet is queued, so nothing waits for an acknowledgement. -/
theorem close_wraps_fin :
    s0.should_close = false
    ∧ s0.send_next_seq_n = 0
    ∧ (Streamer.close hConst s0).send_q.map (fun e => wireFin e.packet) = [false]
    ∧ (Streamer.close hConst s0).send_q.map (fun e => e.seq_n) = [0]
    ∧ (Streamer.close hConst s0).tx.map wireSeq = [1]
    ∧ (Streamer.close hConst s0).tx.map wireAck = [true] := by
  decide

/-- C9 is refuted by the code: starting from a fresh stream, two `close()`
calls leave `send_next_seq_n` at 2 and two entries on the send queue,
whereas a single call leaves 1 and one entry — `close()` never sets
`should_close`, so the second call repeats the whole FIN sequence. -/
theorem close_not_idempotent :
    (Streamer.close hConst (Streamer.close hConst s0)).send_next_seq_n ≠
      (Streamer.close hConst s0).send_next_seq_n
    ∧ (Streamer.close hConst (Streamer.close hConst s0)).send_q.length ≠
      (Streamer.close hConst s0).send_q.length := by
  decide

theorem close_step (H : List Nat → List Nat) (hH : ∀ x, (H x).length = 32)
    (s : StreamerState) (h : s.should_close = false) :
    Streamer.close H s =
      { s with
        send_q := s.send_q ++
          sendEntries H 2 s.send_next_seq_n
            ((Packet.mk s.send_next_seq_n 0 false true []).to_bytes H),
        send_next_seq_n := s.send_next_seq_n + 1,
        tx := s.tx ++ [(Packet.mk (s.send_next_seq_n + 1) 0 true false []).to_bytes H],
        closed := true, stopped := true }
    ∧ (sendEntries H 2 s.send_next_seq_n
        ((Packet.mk s.send_next_seq_n 0 false true []).to_bytes H)).length = 1 := by
  have hlen : ((Packet.mk s.send_next_seq_n 0 false true []).to_bytes H).length = 49 := by
    rw [to_bytes_length H hH]
    simp
  have hone : (sendEntries H 2 s.send_next_seq_n
      ((Packet.mk s.send_next_seq_n 0 false true []).to_bytes H)).length = 1 := by
    rw [sendEntries, sendEntriesGo_length H 2 _ _ _ (Nat.le_refl _), hlen]
    decide
  refine ⟨?_, hone⟩
  have ht : resolveTimeout (some 2) = 2 := by norm_num [resolveTimeout]
  have key : Streamer.send H s
      ((Packet.mk s.send_next_seq_n 0 false true []).to_bytes H) (some 2) =
      { s with
        send_q := s.send_q ++ sendEntries H 2 s.send_next_seq_n
          ((Packet.mk s.send_next_seq_n 0 false true []).to_bytes H),
        send_next_seq_n := s.send_next_seq_n + 1 } := by
    simp only [Streamer.send, sendData, ht]
    rw [sendGo_eq H 2 ((Packet.mk s.send_next_seq_n 0 false true []).to_bytes H).length
      ((Packet.mk s.send_next_seq_n 0 false true []).to_bytes H) s (Nat.le_refl _)]
    rw [show sendEntriesGo H 2
        ((Packet.mk s.send_next_seq_n 0 false true []).to_bytes H).length s.send_next_seq_n
        ((Packet.mk s.send_next_seq_n 0 false true []).to_bytes H) =
      sendEntries H 2 s.send_next_seq_n
        ((Packet.mk s.send_next_seq_n 0 false true []).to_bytes H) from rfl]
    rw [hone]
  have hcond : ¬ s.should_close = true := by simp [h]
  simp only [Streamer.close, if_pos hcond]
  rw [key]

/-- C9 (amended): only the `closed`/`stopped` flags are idempotent: each
`close()` on a stream with `should_close` unset (and `close()` itself
never sets `should_close`) enqueues one more wrapped-FIN packet,
transmits one more bare ACK and increments `send_next_seq_n` again, so
two calls do not leave the stream in the state one call produces. -/
theorem close_twice (H : List Nat → List Nat) (hH : ∀ x, (H x).length = 32)
    (s : StreamerState) (h : s.should_close = false) :
    (Streamer.close H s).closed = true
    ∧ (Streamer.close H s).should_close = false
    ∧ (Streamer.close H s).send_q.length = s.send_q.length + 1
    ∧ (Streamer.close H s).send_next_seq_n = s.send_next_seq_n + 1
    ∧ (Streamer.close H s).tx.length = s.tx.length + 1
    ∧ (Streamer.close H (Streamer.close H s)).closed = true
    ∧ (Streamer.close H (Streamer.close H s)).send_q.length = s.send_q.length + 2
    ∧ (Streamer.close H (Streamer.close H s)).send_next_seq_n = s.send_next_seq_n + 2
    ∧ (Streamer.close H (Streamer.close H s)).tx.length = s.tx.length + 2 := by
  obtain ⟨hc1, hone1⟩ := close_step H hH s h
  have h2 : (Streamer.close H s).should_close = false := by
    rw [hc1]
    simpa using h
  obtain ⟨hc2, hone2⟩ := close_step H hH (Streamer.close H s) h2
  rw [hc1] at hc2 hone2
  simp at hone2
  rw [hc1, hc2]
  simp [hone1, hone2]
  exact h

/-- Witness for the amended C9 on a fresh stream. -/
theorem close_twice_witness :
    (Streamer.close hConst s0).closed = true
    ∧ (Streamer.close hConst s0).should_close = false
    ∧ (Streamer.close hConst s0).send_q.length = s0.send_q.length + 1
    ∧ (Streamer.close hConst s0).send_next_seq_n = s0.send_next_seq_n + 1
    ∧ (Streamer.close hConst s0).tx.length = s0.tx.length + 1
    ∧ (Streamer.close hConst (Streamer.close hConst s0)).closed = true
    ∧ (Streamer.close hConst (Streamer.close hConst s0)).send_q.length = s0.send_q.length + 2
    ∧ (Streamer.close hConst (Streamer.close hConst s0)).send_next_seq_n =
        s0.send_next_seq_n + 2
    ∧ (Streamer.close hConst (Streamer.close hConst s0)).tx.length = s0.tx.length + 2 :=
  close_twice hConst hConst_len s0 rfl

end Proj2
